import Mathlib

/-!
Shallow embedding of `src/main.rs` of `tiny-url-rs`, a CQRS / event-sourcing
URL-shortener sketch.

The implementation state is `UrlShortenerService { links: HashMap<Slug, (ShortLink, u64)> }`;
we model the hash map extensionally as a function `Slug → Option (ShortLink × Nat)`
with redirect counts reduced modulo `2 ^ 64` (the `u64` width).  The source
contains no event log: the event type, the replay engine and the event a
successful command appends are modelled from the spec where needed.
-/

deriving instance DecidableEq for Except

/-- Width modulus of Rust's `u64`, the type of the redirect counter. -/
def u64Mod : Nat := 2 ^ 64

/-- `pub struct Slug(pub String)` — a unique alias for a shortened URL. -/
structure Slug where
  val : String
deriving DecidableEq, Repr

/-- `pub struct Url(pub String)` — the original URL a short link points to. -/
structure Url where
  val : String
deriving DecidableEq, Repr

/-- `pub enum ShortenerError` — all possible errors of the service. -/
inductive ShortenerError where
  | invalidUrl
  | slugAlreadyInUse
  | slugNotFound
deriving DecidableEq, Repr

/-- `pub struct ShortLink { slug, url }`. -/
structure ShortLink where
  slug : Slug
  url : Url
deriving DecidableEq, Repr

/-- `pub struct Stats { link, redirects }` (`redirects: u64`). -/
structure Stats where
  link : ShortLink
  redirects : Nat
deriving DecidableEq, Repr

/-- `pub struct UrlShortenerService { links: HashMap<Slug, (ShortLink, u64)> }`,
with the hash map modelled extensionally. -/
def UrlShortenerService : Type := Slug → Option (ShortLink × Nat)

/-- `UrlShortenerService::new()` — the empty service. -/
def UrlShortenerService.new : UrlShortenerService := fun _ => none

/-- `links` lookup, i.e. `self.links.get(&slug)`. -/
def UrlShortenerService.links (st : UrlShortenerService) (s : Slug) :
    Option (ShortLink × Nat) := st s

/-- `self.links.insert(slug, v)` / writing through `get_mut`: pointwise update. -/
def UrlShortenerService.store (st : UrlShortenerService) (s : Slug)
    (v : ShortLink × Nat) : UrlShortenerService :=
  fun t => if t = s then some v else st t

/-- `CommandHandler::handle_create_short_link`.  The call to
`Self::generate_random_slug()` in the `None` branch is external randomness, so
the candidate it would return is passed in as the extra argument `gen`. -/
def handle_create_short_link (st : UrlShortenerService) (url : Url)
    (slug : Option Slug) (gen : Slug) :
    Except ShortenerError ShortLink × UrlShortenerService :=
  let s := match slug with
    | some s => s
    | none => gen
  match st.links s with
  | some _ => (Except.error ShortenerError.slugAlreadyInUse, st)
  | none =>
      let short_link : ShortLink := { slug := s, url := url }
      (Except.ok short_link, st.store s (short_link, 0))

/-- `CommandHandler::handle_redirect`: on a present slug, `*redirects += 1`
(`u64` arithmetic) and return the stored link; otherwise `SlugNotFound`. -/
def handle_redirect (st : UrlShortenerService) (slug : Slug) :
    Except ShortenerError ShortLink × UrlShortenerService :=
  match st.links slug with
  | some (link, redirects) =>
      (Except.ok link, st.store slug (link, (redirects + 1) % u64Mod))
  | none => (Except.error ShortenerError.slugNotFound, st)

/-- `CommandHandler::handle_change_short_link`: on a present slug, set
`link.url = new_url` and return the updated link; otherwise `SlugNotFound`. -/
def handle_change_short_link (st : UrlShortenerService) (slug : Slug)
    (new_url : Url) : Except ShortenerError ShortLink × UrlShortenerService :=
  match st.links slug with
  | some (link, redirects) =>
      let newLink : ShortLink := { link with url := new_url }
      (Except.ok newLink, st.store slug (newLink, redirects))
  | none => (Except.error ShortenerError.slugNotFound, st)

/-- `QueryHandler::get_stats`: a read on `&self`, returning the stored link and
count, or `SlugNotFound`. -/
def get_stats (st : UrlShortenerService) (slug : Slug) :
    Except ShortenerError Stats :=
  match st.links slug with
  | some (link, redirects) => Except.ok { link := link, redirects := redirects }
  | none => Except.error ShortenerError.slugNotFound

/-- Modelled from the spec: the domain `Event` type (§3 of the spec).  The
source declares no event type — its module documentation and the spec describe
`LinkCreated`, `LinkUrlChanged` and `RedirectRecorded`. -/
inductive Event where
  | linkCreated (slug : Slug) (url : Url)
  | linkUrlChanged (slug : Slug) (new_url : Url)
  | redirectRecorded (slug : Slug)
deriving DecidableEq, Repr

/-- Modelled from the spec: the Aggregate Replay Engine's `apply` (§4.3),
a pure fold step from (projections, event) to projections.  The three
projections of the spec collapse into the one map the code keeps: the Slug
Existence Index is the map's domain, the Slug Directory its `ShortLink`
component, the Click Counter its `Nat` component (a `u64`, hence the modulus
on increment). -/
def applyEvent (st : UrlShortenerService) : Event → UrlShortenerService
  | Event.linkCreated s u => st.store s ({ slug := s, url := u }, 0)
  | Event.linkUrlChanged s u =>
      match st.links s with
      | some (link, redirects) => st.store s ({ link with url := u }, redirects)
      | none => st
  | Event.redirectRecorded s =>
      match st.links s with
      | some (link, redirects) => st.store s (link, (redirects + 1) % u64Mod)
      | none => st

/-- Modelled from the spec: `rebuild()` (§4.3) — reset projections to empty and
fold every event of the log in sequence order. -/
def rebuild (evs : List Event) : UrlShortenerService :=
  evs.foldl applyEvent UrlShortenerService.new

/-- One invocation of the service's public surface.  A `create` with
`slug = none` carries the candidate `gen` that `generate_random_slug()` would
produce. -/
inductive Op where
  | create (url : Url) (slug : Option Slug) (gen : Slug)
  | redirect (slug : Slug)
  | change (slug : Slug) (new_url : Url)
  | stats (slug : Slug)
deriving DecidableEq, Repr

/-- The result an operation returns to the caller. -/
def opResult (st : UrlShortenerService) : Op → Except ShortenerError (ShortLink ⊕ Stats)
  | Op.create url slug gen => (handle_create_short_link st url slug gen).1.map Sum.inl
  | Op.redirect slug => (handle_redirect st slug).1.map Sum.inl
  | Op.change slug new_url => (handle_change_short_link st slug new_url).1.map Sum.inl
  | Op.stats slug => (get_stats st slug).map Sum.inr

/-- Whether an operation fails on the given state. -/
def opErrors (st : UrlShortenerService) (op : Op) : Bool :=
  match opResult st op with
  | Except.error _ => true
  | Except.ok _ => false

/-- Run one operation: the successor state, together with the event the spec
says a successful command appends to the Event Log (modelled from the spec —
the source keeps no log).  Failing operations and queries append nothing. -/
def runOp (st : UrlShortenerService) : Op → UrlShortenerService × List Event
  | Op.create url slug gen =>
      match handle_create_short_link st url slug gen with
      | (Except.ok link, st') => (st', [Event.linkCreated link.slug url])
      | (Except.error _, st') => (st', [])
  | Op.redirect slug =>
      match handle_redirect st slug with
      | (Except.ok _, st') => (st', [Event.redirectRecorded slug])
      | (Except.error _, st') => (st', [])
  | Op.change slug new_url =>
      match handle_change_short_link st slug new_url with
      | (Except.ok _, st') => (st', [Event.linkUrlChanged slug new_url])
      | (Except.error _, st') => (st', [])
  | Op.stats _ => (st, [])

/-- Run a list of operations from a state, collecting the event history in
order. -/
def run (st : UrlShortenerService) : List Op → UrlShortenerService × List Event
  | [] => (st, [])
  | op :: ops =>
      ((run (runOp st op).1 ops).1,
       (runOp st op).2 ++ (run (runOp st op).1 ops).2)

/-- Number of `Op.redirect s` entries in a list of operations. -/
def countRedirectOps (s : Slug) (ops : List Op) : Nat :=
  ops.countP (fun op => op = Op.redirect s)

/-- Number of `LinkCreated` events for a slug in an event list. -/
def countCreated (s : Slug) (evs : List Event) : Nat :=
  evs.countP (fun e => match e with
    | Event.linkCreated t _ => t = s
    | _ => false)

/-- The redirect count the state stores for a slug (absent ↦ 0). -/
def redirectCount (st : UrlShortenerService) (s : Slug) : Nat :=
  match st.links s with
  | some (_, redirects) => redirects
  | none => 0

/-- Whether a slug is present in the service's map. -/
def slugPresent (st : UrlShortenerService) (s : Slug) : Bool :=
  (st.links s).isSome

/-- Creation potential of a slug: 1 while it is still absent, 0 once it is
present.  A `LinkCreated` event for the slug can only be emitted by spending
this potential. -/
def createPotential (st : UrlShortenerService) (s : Slug) : Nat :=
  if slugPresent st s = true then 0 else 1

/-- Every stored entry is keyed by its own slug: the service never stores a
link under a foreign key. -/
def wfService (st : UrlShortenerService) : Prop :=
  ∀ (s : Slug) (l : ShortLink) (c : Nat), st.links s = some (l, c) → l.slug = s

/-- Pointwise description of a `store` update. -/
theorem links_store (st : UrlShortenerService) (k : Slug) (v : ShortLink × Nat)
    (t : Slug) :
    (st.store k v).links t = if t = k then some v else st.links t := rfl

/-- The state after one operation is the pre-state with the emitted events
folded on by the replay engine's `applyEvent`. -/
theorem runOp_replay (st : UrlShortenerService) (op : Op) :
    (runOp st op).1 = ((runOp st op).2).foldl applyEvent st := by
  cases op with
  | create url slug gen =>
      cases slug with
      | none =>
          unfold runOp handle_create_short_link
          cases h : st.links gen <;> simp [h, applyEvent]
      | some s =>
          unfold runOp handle_create_short_link
          cases h : st.links s <;> simp [h, applyEvent]
  | redirect s =>
      unfold runOp handle_redirect
      cases h : st.links s with
      | none => simp [h]
      | some v => cases v with
        | mk link redirects => simp [h, applyEvent]
  | change s u =>
      unfold runOp handle_change_short_link
      cases h : st.links s with
      | none => simp [h]
      | some v => cases v with
        | mk link redirects => simp [h, applyEvent]
  | stats s => rfl

/-- The state after a run is the pre-state with the whole emitted history
folded on. -/
theorem run_replay (st : UrlShortenerService) (ops : List Op) :
    (run st ops).1 = ((run st ops).2).foldl applyEvent st := by
  induction ops generalizing st with
  | nil => rfl
  | cons op ops ih =>
      simp only [run, List.foldl_append]
      rw [← runOp_replay st op]
      exact ih (runOp st op).1

/-- C1.  Full replay from the empty state agrees with incremental
application: the state reached by any sequence of commands equals the rebuild
of the recorded event history from scratch, and rebuilding a history extended
by one event is exactly one incremental `applyEvent` on the rebuild of the
shorter history. -/
theorem replay_equivalence :
    (∀ ops : List Op,
        (run UrlShortenerService.new ops).1 =
          rebuild (run UrlShortenerService.new ops).2) ∧
    (∀ (evs : List Event) (e : Event),
        rebuild (evs ++ [e]) = applyEvent (rebuild evs) e) := by
  constructor
  · intro ops
    exact run_replay UrlShortenerService.new ops
  · intro evs e
    simp [rebuild, List.foldl_append]

/-- The slug a `create` acts on is the supplied one, or the generated
candidate when none is supplied. -/
theorem create_resolved (st : UrlShortenerService) (url : Url)
    (slug : Option Slug) (gen : Slug) :
    handle_create_short_link st url slug gen =
      (match st.links (slug.getD gen) with
       | some _ => (Except.error ShortenerError.slugAlreadyInUse, st)
       | none =>
          (Except.ok { slug := slug.getD gen, url := url },
           st.store (slug.getD gen)
             ({ slug := slug.getD gen, url := url }, 0))) := by
  cases slug <;> rfl

/-- One operation keeps a present slug present, and changes its redirect
count exactly when the operation is a redirect of that slug, by a `u64`
increment. -/
theorem runOp_redirectCount (st : UrlShortenerService) (s : Slug) (op : Op)
    (h : slugPresent st s = true) :
    slugPresent (runOp st op).1 s = true ∧
    redirectCount (runOp st op).1 s =
      (if op = Op.redirect s then (redirectCount st s + 1) % u64Mod
       else redirectCount st s) := by
  cases op with
  | create url slug gen =>
      rcases hg : st.links (slug.getD gen) with _ | v
      · have hns : ¬ s = slug.getD gen := by
          intro he
          rw [← he] at hg
          simp [slugPresent, hg] at h
        constructor
        · simpa [runOp, create_resolved, hg, slugPresent, links_store, hns]
            using h
        · simp [runOp, create_resolved, hg, redirectCount, links_store, hns]
      · constructor
        · simpa [runOp, create_resolved, hg] using h
        · simp [runOp, create_resolved, hg]
  | redirect t =>
      rcases hg : st.links t with _ | ⟨link, redirects⟩
      · have hns : ¬ t = s := by
          intro he
          rw [he] at hg
          simp [slugPresent, hg] at h
        constructor
        · simpa [runOp, handle_redirect, hg] using h
        · simp [runOp, handle_redirect, hg, hns]
      · by_cases hts : s = t
        · subst hts
          constructor
          · simp [runOp, handle_redirect, hg, slugPresent, links_store]
          · simp [runOp, handle_redirect, hg, redirectCount, links_store]
        · have hst : ¬ t = s := fun he => hts he.symm
          constructor
          · simpa [runOp, handle_redirect, hg, slugPresent, links_store, hts]
              using h
          · simp [runOp, handle_redirect, hg, redirectCount, links_store, hts,
              hst]
  | change t u =>
      rcases hg : st.links t with _ | ⟨link, redirects⟩
      · constructor
        · simpa [runOp, handle_change_short_link, hg] using h
        · simp [runOp, handle_change_short_link, hg]
      · by_cases hts : s = t
        · subst hts
          constructor
          · simp [runOp, handle_change_short_link, hg, slugPresent,
              links_store]
          · simp [runOp, handle_change_short_link, hg, redirectCount,
              links_store]
        · constructor
          · simpa [runOp, handle_change_short_link, hg, slugPresent,
              links_store, hts] using h
          · simp [runOp, handle_change_short_link, hg, redirectCount,
              links_store, hts]
  | stats t => exact ⟨h, by simp [runOp]⟩

/-- A present slug stays present across a whole run. -/
theorem slugPresent_run (st : UrlShortenerService) (s : Slug) (ops : List Op)
    (h : slugPresent st s = true) : slugPresent (run st ops).1 s = true := by
  induction ops generalizing st with
  | nil => exact h
  | cons op ops ih =>
      simp only [run]
      exact ih (runOp st op).1 (runOp_redirectCount st s op h).1

/-- Counting lemma: across a run, the stored redirect count of a present slug
advances by exactly the number of `redirect` operations on it (as a `u64`). -/
theorem redirectCount_run (st : UrlShortenerService) (s : Slug) (ops : List Op)
    (h : slugPresent st s = true) (hc : redirectCount st s < u64Mod) :
    redirectCount (run st ops).1 s =
      (redirectCount st s + countRedirectOps s ops) % u64Mod := by
  induction ops generalizing st with
  | nil => simp [run, countRedirectOps, Nat.mod_eq_of_lt hc]
  | cons op ops ih =>
      obtain ⟨hpres, hcount⟩ := runOp_redirectCount st s op h
      simp only [run]
      by_cases hop : op = Op.redirect s
      · have hc' : redirectCount (runOp st op).1 s < u64Mod := by
          rw [hcount, if_pos hop]
          exact Nat.mod_lt _ (by simp [u64Mod])
        rw [ih (runOp st op).1 hpres hc', hcount, if_pos hop,
          Nat.mod_add_mod]
        have hcnt : countRedirectOps s (op :: ops) =
            countRedirectOps s ops + 1 := by
          simp [countRedirectOps, List.countP_cons, hop]
        rw [hcnt]
        ring_nf
      · have hc' : redirectCount (runOp st op).1 s < u64Mod := by
          rw [hcount, if_neg hop]
          exact hc
        rw [ih (runOp st op).1 hpres hc', hcount, if_neg hop]
        have hcnt : countRedirectOps s (op :: ops) = countRedirectOps s ops := by
          simp [countRedirectOps, List.countP_cons, hop]
        rw [hcnt]

/-- C2.  A slug created with redirect count 0 reports `redirects == N` after
exactly `N` redirects of it, however they are interleaved with other
operations (`N` below the `u64` width). -/
theorem redirect_counting (st : UrlShortenerService) (url : Url) (s : Slug)
    (gen : Slug) (ops : List Op)
    (habs : st.links s = none)
    (hN : countRedirectOps s ops < u64Mod) :
    ∃ link : ShortLink,
      get_stats
          (run (handle_create_short_link st url (some s) gen).2 ops).1 s =
        Except.ok { link := link, redirects := countRedirectOps s ops } := by
  have hstep : (handle_create_short_link st url (some s) gen).2 =
      st.store s ({ slug := s, url := url }, 0) := by
    simp [handle_create_short_link, habs]
  rw [hstep]
  have hpres : slugPresent (st.store s ({ slug := s, url := url }, 0)) s =
      true := by
    simp [slugPresent, links_store]
  have hzero : redirectCount (st.store s ({ slug := s, url := url }, 0)) s =
      0 := by
    simp [redirectCount, links_store]
  have hcnt := redirectCount_run _ s ops hpres (by rw [hzero]; simp [u64Mod])
  rw [hzero, Nat.zero_add, Nat.mod_eq_of_lt hN] at hcnt
  have hpres' := slugPresent_run _ s ops hpres
  unfold slugPresent at hpres'
  rcases hsome : ((run (st.store s ({ slug := s, url := url }, 0)) ops).1).links
      s with _ | ⟨link, c⟩
  · rw [hsome] at hpres'
    simp at hpres'
  · refine ⟨link, ?_⟩
    unfold redirectCount at hcnt
    rw [hsome] at hcnt
    have hc2 : c = countRedirectOps s ops := hcnt
    simp [get_stats, hsome, hc2]

/-- Witness for C2: two interleaved redirects of `"abc"` report exactly 2. -/
theorem redirect_counting_witness :
    UrlShortenerService.new.links ⟨"abc"⟩ = none ∧
    countRedirectOps ⟨"abc"⟩
        [Op.redirect ⟨"abc"⟩, Op.stats ⟨"abc"⟩, Op.redirect ⟨"abc"⟩] <
      u64Mod ∧
    ∃ link : ShortLink,
      get_stats
          (run (handle_create_short_link UrlShortenerService.new ⟨"u"⟩
              (some ⟨"abc"⟩) ⟨"g"⟩).2
            [Op.redirect ⟨"abc"⟩, Op.stats ⟨"abc"⟩, Op.redirect ⟨"abc"⟩]).1
          ⟨"abc"⟩ =
        Except.ok ⟨link, countRedirectOps ⟨"abc"⟩
          [Op.redirect ⟨"abc"⟩, Op.stats ⟨"abc"⟩, Op.redirect ⟨"abc"⟩]⟩ :=
  ⟨rfl, by decide,
   redirect_counting UrlShortenerService.new ⟨"u"⟩ ⟨"abc"⟩ ⟨"g"⟩
     [Op.redirect ⟨"abc"⟩, Op.stats ⟨"abc"⟩, Op.redirect ⟨"abc"⟩] rfl
     (by decide)⟩

/-- C3.  Creating with a slug that is already present fails with
`SlugAlreadyInUse` and leaves the state unchanged; in particular, after a
successful `create(url1, Some s)`, a second `create(url2, Some s)` is
rejected and `s` still maps to `url1`. -/
theorem create_duplicate_rejected :
    (∀ (st : UrlShortenerService) (url2 : Url) (s : Slug) (gen : Slug)
        (v : ShortLink × Nat), st.links s = some v →
        handle_create_short_link st url2 (some s) gen =
          (Except.error ShortenerError.slugAlreadyInUse, st)) ∧
    (∀ (st : UrlShortenerService) (url1 url2 : Url) (s : Slug)
        (gen1 gen2 : Slug), st.links s = none →
        handle_create_short_link
            (handle_create_short_link st url1 (some s) gen1).2 url2 (some s)
            gen2 =
          (Except.error ShortenerError.slugAlreadyInUse,
           (handle_create_short_link st url1 (some s) gen1).2) ∧
        ((handle_create_short_link st url1 (some s) gen1).2).links s =
          some ({ slug := s, url := url1 }, 0)) := by
  constructor
  · intro st url2 s gen v h
    simp [handle_create_short_link, h]
  · intro st url1 url2 s gen1 gen2 h
    have h1 : (handle_create_short_link st url1 (some s) gen1).2 =
        st.store s ({ slug := s, url := url1 }, 0) := by
      simp [handle_create_short_link, h]
    rw [h1]
    constructor
    · simp [handle_create_short_link, links_store]
    · simp [links_store]

/-- Witness for C3 at Scenario B's inputs. -/
theorem create_duplicate_rejected_witness :
    (handle_create_short_link UrlShortenerService.new ⟨"https://x.com"⟩
        (some ⟨"abc"⟩) ⟨"g"⟩).2.links ⟨"abc"⟩ =
      some ({ slug := ⟨"abc"⟩, url := ⟨"https://x.com"⟩ }, 0) ∧
    handle_create_short_link
        (handle_create_short_link UrlShortenerService.new ⟨"https://x.com"⟩
          (some ⟨"abc"⟩) ⟨"g"⟩).2 ⟨"https://y.com"⟩ (some ⟨"abc"⟩) ⟨"g"⟩ =
      (Except.error ShortenerError.slugAlreadyInUse,
       (handle_create_short_link UrlShortenerService.new ⟨"https://x.com"⟩
         (some ⟨"abc"⟩) ⟨"g"⟩).2) := by
  have h := create_duplicate_rejected.2 UrlShortenerService.new
    ⟨"https://x.com"⟩ ⟨"https://y.com"⟩ ⟨"abc"⟩ ⟨"g"⟩ ⟨"g"⟩ rfl
  exact ⟨h.2, h.1⟩

/-- C4 (code evaluation).  The source performs no URL validation: creating a
link for the empty URL, or changing a link to the empty URL, both succeed
instead of failing with `InvalidUrl`. -/
theorem no_url_validation :
    (handle_create_short_link UrlShortenerService.new ⟨""⟩ (some ⟨"abc"⟩)
        ⟨"g"⟩).1 =
      Except.ok { slug := ⟨"abc"⟩, url := ⟨""⟩ } ∧
    (handle_change_short_link
        (handle_create_short_link UrlShortenerService.new ⟨"https://x.com"⟩
          (some ⟨"abc"⟩) ⟨"g"⟩).2 ⟨"abc"⟩ ⟨""⟩).1 =
      Except.ok { slug := ⟨"abc"⟩, url := ⟨""⟩ } := by
  constructor <;> decide

/-- C5.  A failing operation is atomic: it neither changes the state nor
appends an event. -/
theorem error_atomicity (st : UrlShortenerService) (op : Op)
    (h : opErrors st op = true) : runOp st op = (st, []) := by
  cases op with
  | create url slug gen =>
      rcases hg : st.links (slug.getD gen) with _ | v
      · simp [opErrors, opResult, create_resolved, hg, Except.map] at h
      · simp [runOp, create_resolved, hg]
  | redirect t =>
      rcases hg : st.links t with _ | ⟨link, redirects⟩
      · simp [runOp, handle_redirect, hg]
      · simp [opErrors, opResult, handle_redirect, hg, Except.map] at h
  | change t u =>
      rcases hg : st.links t with _ | ⟨link, redirects⟩
      · simp [runOp, handle_change_short_link, hg]
      · simp [opErrors, opResult, handle_change_short_link, hg, Except.map] at h
  | stats t => rfl

/-- Witness for C5 at Scenario C's input: a redirect of a missing slug. -/
theorem error_atomicity_witness :
    opErrors UrlShortenerService.new (Op.redirect ⟨"missing"⟩) = true ∧
    runOp UrlShortenerService.new (Op.redirect ⟨"missing"⟩) =
      (UrlShortenerService.new, []) :=
  ⟨by decide,
   error_atomicity UrlShortenerService.new (Op.redirect ⟨"missing"⟩)
     (by decide)⟩

/-- C6.  Changing an existing slug rebinds its URL, returns the updated link
and preserves its redirect count; changing an absent slug fails with
`SlugNotFound`; and Scenario D holds concretely. -/
theorem change_short_link_spec :
    (∀ (st : UrlShortenerService) (s : Slug) (u_old u_new : Url) (c : Nat),
        st.links s = some ({ slug := s, url := u_old }, c) →
        handle_change_short_link st s u_new =
          (Except.ok { slug := s, url := u_new },
           st.store s ({ slug := s, url := u_new }, c))) ∧
    (∀ (st : UrlShortenerService) (s : Slug) (u : Url),
        st.links s = none →
        handle_change_short_link st s u =
          (Except.error ShortenerError.slugNotFound, st)) ∧
    get_stats
        (run UrlShortenerService.new
          [Op.create ⟨"https://x.com"⟩ (some ⟨"abc"⟩) ⟨"g"⟩,
           Op.change ⟨"abc"⟩ ⟨"https://z.com"⟩,
           Op.redirect ⟨"abc"⟩]).1 ⟨"abc"⟩ =
      Except.ok { link := { slug := ⟨"abc"⟩, url := ⟨"https://z.com"⟩ },
                  redirects := 1 } := by
  refine ⟨?_, ?_, ?_⟩
  · intro st s u_old u_new c hst
    simp [handle_change_short_link, hst]
  · intro st s u hst
    simp [handle_change_short_link, hst]
  · decide

/-- Witness for C6 on concrete states. -/
theorem change_short_link_spec_witness :
    handle_change_short_link
        (handle_create_short_link UrlShortenerService.new ⟨"u"⟩ (some ⟨"s"⟩)
          ⟨"g"⟩).2 ⟨"s"⟩ ⟨"v"⟩ =
      (Except.ok { slug := ⟨"s"⟩, url := ⟨"v"⟩ },
       ((handle_create_short_link UrlShortenerService.new ⟨"u"⟩ (some ⟨"s"⟩)
         ⟨"g"⟩).2).store ⟨"s"⟩ ({ slug := ⟨"s"⟩, url := ⟨"v"⟩ }, 0)) ∧
    handle_change_short_link UrlShortenerService.new ⟨"s"⟩ ⟨"v"⟩ =
      (Except.error ShortenerError.slugNotFound, UrlShortenerService.new) :=
  ⟨change_short_link_spec.1 _ ⟨"s"⟩ ⟨"u"⟩ ⟨"v"⟩ 0 (by decide),
   change_short_link_spec.2.1 UrlShortenerService.new ⟨"s"⟩ ⟨"v"⟩ rfl⟩

/-- C8.  `get_stats` is a pure read: it leaves the state unchanged and
appends nothing, consecutive calls agree, it fails with `SlugNotFound`
exactly on absent slugs, and on present slugs it reports exactly the stored
link and count. -/
theorem get_stats_pure :
    (∀ (st : UrlShortenerService) (s : Slug),
        runOp st (Op.stats s) = (st, [])) ∧
    (∀ (st : UrlShortenerService) (s : Slug),
        get_stats (runOp st (Op.stats s)).1 s = get_stats st s) ∧
    (∀ (st : UrlShortenerService) (s : Slug),
        get_stats st s = Except.error ShortenerError.slugNotFound ↔
          st.links s = none) ∧
    (∀ (st : UrlShortenerService) (s : Slug) (l : ShortLink) (c : Nat),
        st.links s = some (l, c) →
        get_stats st s = Except.ok { link := l, redirects := c }) := by
  refine ⟨fun st s => rfl, fun st s => rfl, ?_, ?_⟩
  · intro st s
    rcases hg : st.links s with _ | ⟨l, c⟩ <;> simp [get_stats, hg]
  · intro st s l c hst
    simp [get_stats, hst]

/-- Witness for C8 on concrete states. -/
theorem get_stats_pure_witness :
    runOp UrlShortenerService.new (Op.stats ⟨"a"⟩) =
      (UrlShortenerService.new, []) ∧
    (get_stats UrlShortenerService.new ⟨"a"⟩ =
        Except.error ShortenerError.slugNotFound ↔
      UrlShortenerService.new.links ⟨"a"⟩ = none) ∧
    get_stats
        (handle_create_short_link UrlShortenerService.new ⟨"u"⟩ (some ⟨"a"⟩)
          ⟨"g"⟩).2 ⟨"a"⟩ =
      Except.ok { link := { slug := ⟨"a"⟩, url := ⟨"u"⟩ }, redirects := 0 } :=
  ⟨get_stats_pure.1 UrlShortenerService.new ⟨"a"⟩,
   get_stats_pure.2.2.1 UrlShortenerService.new ⟨"a"⟩,
   get_stats_pure.2.2.2 _ ⟨"a"⟩ { slug := ⟨"a"⟩, url := ⟨"u"⟩ } 0 (by decide)⟩

/-- C9.  Frame property of a successful redirect: it returns the stored
link, bumps exactly that slug's count by one (`u64` arithmetic), keeps that
slug's link unchanged, and leaves every other slug's entry untouched. -/
theorem redirect_frame (st : UrlShortenerService) (s : Slug) (l : ShortLink)
    (c : Nat) (h : st.links s = some (l, c)) :
    (handle_redirect st s).1 = Except.ok l ∧
    ((handle_redirect st s).2).links s = some (l, (c + 1) % u64Mod) ∧
    ∀ t : Slug, ¬ t = s → ((handle_redirect st s).2).links t = st.links t := by
  refine ⟨?_, ?_, ?_⟩
  · simp [handle_redirect, h]
  · simp [handle_redirect, h, links_store]
  · intro t ht
    simp [handle_redirect, h, links_store, ht]

/-- Witness for C9 on a concrete state. -/
theorem redirect_frame_witness :
    (handle_redirect
        (handle_create_short_link UrlShortenerService.new ⟨"u"⟩ (some ⟨"s"⟩)
          ⟨"g"⟩).2 ⟨"s"⟩).1 =
      Except.ok { slug := ⟨"s"⟩, url := ⟨"u"⟩ } ∧
    ((handle_redirect
        (handle_create_short_link UrlShortenerService.new ⟨"u"⟩ (some ⟨"s"⟩)
          ⟨"g"⟩).2 ⟨"s"⟩).2).links ⟨"s"⟩ =
      some ({ slug := ⟨"s"⟩, url := ⟨"u"⟩ }, (0 + 1) % u64Mod) ∧
    ∀ t : Slug, ¬ t = ⟨"s"⟩ →
      ((handle_redirect
          (handle_create_short_link UrlShortenerService.new ⟨"u"⟩
            (some ⟨"s"⟩) ⟨"g"⟩).2 ⟨"s"⟩).2).links t =
        ((handle_create_short_link UrlShortenerService.new ⟨"u"⟩ (some ⟨"s"⟩)
          ⟨"g"⟩).2).links t :=
  redirect_frame _ ⟨"s"⟩ { slug := ⟨"s"⟩, url := ⟨"u"⟩ } 0 (by decide)

/-- C10.  A `create` with no slug supplied, whose generated candidate
collides with an existing slug, fails with `SlugAlreadyInUse` without any
retry and leaves the state unchanged. -/
theorem create_generated_collision (st : UrlShortenerService) (url : Url)
    (gen : Slug) (v : ShortLink × Nat) (h : st.links gen = some v) :
    handle_create_short_link st url none gen =
      (Except.error ShortenerError.slugAlreadyInUse, st) := by
  simp [handle_create_short_link, h]

/-- Witness for C10 on a concrete state. -/
theorem create_generated_collision_witness :
    handle_create_short_link
        (handle_create_short_link UrlShortenerService.new ⟨"u"⟩ (some ⟨"g"⟩)
          ⟨"x"⟩).2 ⟨"w"⟩ none ⟨"g"⟩ =
      (Except.error ShortenerError.slugAlreadyInUse,
       (handle_create_short_link UrlShortenerService.new ⟨"u"⟩ (some ⟨"g"⟩)
         ⟨"x"⟩).2) :=
  create_generated_collision _ ⟨"w"⟩ ⟨"g"⟩
    ({ slug := ⟨"g"⟩, url := ⟨"u"⟩ }, 0) (by decide)

/-- A pointwise store can only lower the creation potential of a slug. -/
theorem createPotential_store_le (st : UrlShortenerService) (k : Slug)
    (v : ShortLink × Nat) (s : Slug) :
    createPotential (st.store k v) s ≤ createPotential st s := by
  by_cases hsk : s = k
  · subst hsk
    simp [createPotential, slugPresent, links_store]
  · simp [createPotential, slugPresent, links_store, hsk]

/-- One operation emits `LinkCreated` events for a slug only by spending its
creation potential. -/
theorem countCreated_runOp (st : UrlShortenerService) (s : Slug) (op : Op) :
    countCreated s (runOp st op).2 + createPotential (runOp st op).1 s ≤
      createPotential st s := by
  cases op with
  | create url slug gen =>
      rcases hg : st.links (slug.getD gen) with _ | v
      · by_cases hrs : slug.getD gen = s
        · subst hrs
          have habs : createPotential st (slug.getD gen) = 1 := by
            simp [createPotential, slugPresent, hg]
          have hpres : createPotential (runOp st (Op.create url slug gen)).1
              (slug.getD gen) = 0 := by
            simp [runOp, create_resolved, hg, createPotential, slugPresent,
              links_store]
          have hcnt : countCreated (slug.getD gen)
              (runOp st (Op.create url slug gen)).2 = 1 := by
            simp [runOp, create_resolved, hg, countCreated]
          rw [habs, hpres, hcnt]
        · have hcnt : countCreated s (runOp st (Op.create url slug gen)).2
              = 0 := by
            simp [runOp, create_resolved, hg, countCreated, hrs]
          have hpot : createPotential (runOp st (Op.create url slug gen)).1
              s = createPotential st s := by
            have hsr : ¬ s = slug.getD gen := fun he => hrs he.symm
            simp [runOp, create_resolved, hg, createPotential, slugPresent,
              links_store, hsr]
          rw [hcnt, hpot]
          simp
      · simp [runOp, create_resolved, hg, countCreated]
  | redirect t =>
      rcases hg : st.links t with _ | v
      · simp [runOp, handle_redirect, hg, countCreated]
      · have hcnt : countCreated s (runOp st (Op.redirect t)).2 = 0 := by
          simp [runOp, handle_redirect, hg, countCreated]
        have hst : (runOp st (Op.redirect t)).1 =
            st.store t (v.1, (v.2 + 1) % u64Mod) := by
          rcases v with ⟨link, redirects⟩
          simp [runOp, handle_redirect, hg]
        rw [hcnt, hst, Nat.zero_add]
        exact createPotential_store_le st t _ s
  | change t u =>
      rcases hg : st.links t with _ | v
      · simp [runOp, handle_change_short_link, hg, countCreated]
      · have hcnt : countCreated s (runOp st (Op.change t u)).2 = 0 := by
          simp [runOp, handle_change_short_link, hg, countCreated]
        have hst : (runOp st (Op.change t u)).1 =
            st.store t ({ v.1 with url := u }, v.2) := by
          rcases v with ⟨link, redirects⟩
          simp [runOp, handle_change_short_link, hg]
        rw [hcnt, hst, Nat.zero_add]
        exact createPotential_store_le st t _ s
  | stats t => simp [runOp, countCreated]

/-- Across a whole run, `LinkCreated` events for a slug are bounded by its
initial creation potential. -/
theorem countCreated_run (st : UrlShortenerService) (s : Slug)
    (ops : List Op) :
    countCreated s (run st ops).2 + createPotential (run st ops).1 s ≤
      createPotential st s := by
  induction ops generalizing st with
  | nil => simp [run, countCreated]
  | cons op ops ih =>
      have hstep := countCreated_runOp st s op
      have hrest := ih (runOp st op).1
      simp only [run, countCreated, List.countP_append] at *
      omega

/-- A store keyed by the stored link's own slug preserves well-formedness. -/
theorem wf_store (st : UrlShortenerService) (k : Slug) (l : ShortLink)
    (c : Nat) (h : wfService st) (hl : l.slug = k) :
    wfService (st.store k (l, c)) := by
  intro s l' c' hsc
  rw [links_store] at hsc
  by_cases hsk : s = k
  · rw [if_pos hsk] at hsc
    obtain ⟨hll, _⟩ := Prod.mk.injEq .. ▸ Option.some.inj hsc
    rw [← hll, hl, hsk]
  · rw [if_neg hsk] at hsc
    exact h s l' c' hsc

/-- One operation preserves well-formedness of the stored links. -/
theorem wf_runOp (st : UrlShortenerService) (op : Op) (h : wfService st) :
    wfService (runOp st op).1 := by
  cases op with
  | create url slug gen =>
      rcases hg : st.links (slug.getD gen) with _ | v
      · have hst : (runOp st (Op.create url slug gen)).1 =
            st.store (slug.getD gen)
              ({ slug := slug.getD gen, url := url }, 0) := by
          simp [runOp, create_resolved, hg]
        rw [hst]
        exact wf_store st _ _ _ h rfl
      · have hst : (runOp st (Op.create url slug gen)).1 = st := by
          simp [runOp, create_resolved, hg]
        rw [hst]
        exact h
  | redirect t =>
      rcases hg : st.links t with _ | ⟨link, redirects⟩
      · have hst : (runOp st (Op.redirect t)).1 = st := by
          simp [runOp, handle_redirect, hg]
        rw [hst]
        exact h
      · have hst : (runOp st (Op.redirect t)).1 =
            st.store t (link, (redirects + 1) % u64Mod) := by
          simp [runOp, handle_redirect, hg]
        rw [hst]
        exact wf_store st t link _ h (h t link redirects hg)
  | change t u =>
      rcases hg : st.links t with _ | ⟨link, redirects⟩
      · have hst : (runOp st (Op.change t u)).1 = st := by
          simp [runOp, handle_change_short_link, hg]
        rw [hst]
        exact h
      · have hst : (runOp st (Op.change t u)).1 =
            st.store t ({ link with url := u }, redirects) := by
          simp [runOp, handle_change_short_link, hg]
        rw [hst]
        exact wf_store st t _ redirects h (h t link redirects hg)
  | stats t => exact h

/-- A whole run preserves well-formedness of the stored links. -/
theorem wf_run (st : UrlShortenerService) (ops : List Op) (h : wfService st) :
    wfService (run st ops).1 := by
  induction ops generalizing st with
  | nil => exact h
  | cons op ops ih => exact ih (runOp st op).1 (wf_runOp st op h)

/-- C7.  Slugs are unique and immutable: at most one `LinkCreated` per slug
is ever emitted from the empty service, a present slug stays present across
any further operations, and a stored link always carries exactly the slug it
is filed under. -/
theorem slug_unique_and_immutable :
    (∀ (s : Slug) (ops : List Op),
        countCreated s (run UrlShortenerService.new ops).2 ≤ 1) ∧
    (∀ (st : UrlShortenerService) (s : Slug) (ops : List Op),
        slugPresent st s = true → slugPresent (run st ops).1 s = true) ∧
    (∀ ops : List Op, wfService (run UrlShortenerService.new ops).1) := by
  refine ⟨?_, ?_, ?_⟩
  · intro s ops
    have h := countCreated_run UrlShortenerService.new s ops
    have hpot : createPotential UrlShortenerService.new s = 1 := rfl
    rw [hpot] at h
    omega
  · exact fun st s ops h => slugPresent_run st s ops h
  · intro ops
    exact wf_run UrlShortenerService.new ops
      (fun s l c hsc => Option.noConfusion hsc)

/-- Witness for C7 on concrete runs. -/
theorem slug_unique_and_immutable_witness :
    countCreated ⟨"a"⟩
        (run UrlShortenerService.new
          [Op.create ⟨"u"⟩ (some ⟨"a"⟩) ⟨"g"⟩]).2 ≤ 1 ∧
    slugPresent
        (run (handle_create_short_link UrlShortenerService.new ⟨"u"⟩
            (some ⟨"a"⟩) ⟨"g"⟩).2 [Op.redirect ⟨"a"⟩]).1 ⟨"a"⟩ = true ∧
    ({ slug := ⟨"a"⟩, url := ⟨"u"⟩ } : ShortLink).slug = ⟨"a"⟩ :=
  ⟨slug_unique_and_immutable.1 ⟨"a"⟩ _,
   slug_unique_and_immutable.2.1 _ ⟨"a"⟩ [Op.redirect ⟨"a"⟩] (by decide),
   slug_unique_and_immutable.2.2 [Op.create ⟨"u"⟩ (some ⟨"a"⟩) ⟨"g"⟩] ⟨"a"⟩
     { slug := ⟨"a"⟩, url := ⟨"u"⟩ } 0 (by decide)⟩
